import Mathlib

/-!
# Verification of the BunnyBubbleShooter life/ranking server core

Shallow embedding of the final revision of the server (the one with the
ranking endpoint, nickname allocation and the promotion flag).  Times are
modelled in whole seconds as `Nat` (the source divides a millisecond
difference by 1000 and floors, then clamps negatives to zero; `Nat`
truncated subtraction is exactly that clamp).  JS numbers that hold life,
level and cap values are modelled as `Int`; the refill interval, which is
only ever created as the positive constant 900, as `Nat`.
-/

/-- Result record of `calculateLife`: the recomputed life, the remaining
cooldown in seconds, and how many natural refills the elapsed time produced. -/
structure LifeResult where
  life : Int
  nextRefillIn : Nat
  refillCount : Nat
deriving DecidableEq

/-- Embedding of `calculateLife(user)`.  The `Option` arguments mirror the
destructuring defaults `life = 5, maxLives = 5, refillInterval = 900` (a field
absent from the document picks the default) and the `lastLifeUpdate` falsiness
check.  Branch order follows the source: the at-cap check comes first, then
the absent-anchor check, then the elapsed-time arithmetic. -/
def calculateLife (life? maxLives? : Option Int) (refillInterval? : Option Nat)
    (lastLifeUpdate : Option Nat) (now : Nat) : LifeResult :=
  let life := life?.getD 5
  let maxLives := maxLives?.getD 5
  let refillInterval := refillInterval?.getD 900
  if maxLives ≤ life then
    ⟨life, 0, 0⟩
  else
    match lastLifeUpdate with
    | none => ⟨life, refillInterval, 0⟩
    | some last =>
      let diffSec := now - last
      let refillCount := diffSec / refillInterval
      let newLife := min maxLives (life + (refillCount : Int))
      let nextRefillIn := refillInterval - diffSec % refillInterval
      let nextRefillIn := if maxLives ≤ newLife then 0 else nextRefillIn
      ⟨newLife, nextRefillIn, refillCount⟩

/-- C3: for a record below the cap with a present anchor and elapsed time
`k·interval + r` (`r < interval`), `calculateLife` yields `refillCount = k`,
`life' = min(maxLives, life + k)` and `nextRefillIn = interval - r`, forced to
`0` exactly when the new life reaches the cap (so `elapsed = 0` gives a full
interval). -/
theorem calculateLife_elapsed_decomposition
    (life maxLives : Int) (k r interval last now : Nat)
    (hlt : life < maxLives) (hr : r < interval)
    (helapsed : now - last = k * interval + r) :
    calculateLife (some life) (some maxLives) (some interval) (some last) now =
      ⟨min maxLives (life + (k : Int)),
       if min maxLives (life + (k : Int)) = maxLives then 0 else interval - r,
       k⟩ := by
  have hpos : 0 < interval := Nat.pos_of_ne_zero (by omega)
  have hdiv : (k * interval + r) / interval = k := by
    rw [Nat.mul_comm, Nat.mul_add_div hpos, Nat.div_eq_of_lt hr, Nat.add_zero]
  have hmod : (k * interval + r) % interval = r := by
    rw [Nat.mul_comm, Nat.mul_add_mod, Nat.mod_eq_of_lt hr]
  simp only [calculateLife, Option.getD_some, if_neg (not_le.mpr hlt), helapsed, hdiv, hmod]
  have hminle : min maxLives (life + (k : Int)) ≤ maxLives := min_le_left _ _
  congr 1
  by_cases hcap : min maxLives (life + (k : Int)) = maxLives
  · rw [if_pos hcap, if_pos (le_of_eq hcap.symm)]
  · rw [if_neg hcap, if_neg fun h => hcap (le_antisymm hminle h)]

/-- Witness for C3: `life=3, maxLives=5, interval=900`, anchor at `0`, now at
`1000` — one refill, `life'=4`, `nextRefillIn=800`. -/
theorem calculateLife_elapsed_decomposition_witness :
    calculateLife (some 3) (some 5) (some 900) (some 0) 1000 = ⟨4, 800, 1⟩ := by
  have h := calculateLife_elapsed_decomposition 3 5 1 100 900 0 1000
    (by decide) (by decide) (by decide)
  simpa using h

/-- C6 counterexample: the claim asserts that with an absent anchor
`calculateLife` returns `(life, intervalSec, 0)` for FOR EVERY stored life
value; but the at-cap branch precedes the absent-anchor branch, so a record at
`life = maxLives = 5` with no anchor gets `nextRefillIn = 0`, not `900`. -/
theorem calculateLife_no_anchor_at_cap_counterexample :
    calculateLife (some 5) (some 5) (some 900) none 0 = ⟨5, 0, 0⟩ ∧
      (⟨5, 0, 0⟩ : LifeResult) ≠ ⟨5, 900, 0⟩ := by
  constructor
  · rfl
  · decide

/-- C6 (amended): for every record whose anchor is absent and whose stored life
is strictly below the cap, `calculateLife` returns the stored life unchanged,
a full interval of cooldown, and zero refills. -/
theorem calculateLife_no_anchor (life maxLives : Int) (interval now : Nat)
    (h : life < maxLives) :
    calculateLife (some life) (some maxLives) (some interval) none now =
      ⟨life, interval, 0⟩ := by
  simp only [calculateLife, Option.getD_some, if_neg (not_le.mpr h)]

/-- Witness for the amended C6. -/
theorem calculateLife_no_anchor_witness :
    calculateLife (some 2) (some 5) (some 900) none 12345 = ⟨2, 900, 0⟩ :=
  calculateLife_no_anchor 2 5 900 12345 (by decide)

/-- A Firestore `users/{sku}` document as this server writes it.  Creation
(`/load` on an unknown id) populates every field except `clientAppVer` and
`levelUpdatedAt`; a string field the code never wrote behaves, under the JS
truthiness checks used by the handlers, exactly like the empty string, and an
absent timestamp like `none`. -/
structure Rec where
  data : String
  life : Int
  maxLives : Int
  refillInterval : Nat
  lastLifeUpdate : Option Nat
  updatedAt : Option Nat
  level : Int
  nickname : String
  clientAppVer : String
  isPromotionRewardGranted : Bool
  levelUpdatedAt : Option Nat
deriving DecidableEq

/-- Embedding of the existing-user branch of `POST /load`: backfill a missing
nickname, run `calculateLife` on the stored fields, then write back the
recomputed life — adding a fresh anchor (and `updatedAt`) when natural
regeneration occurred (`refillCount > 0`) or, in the `else if`, when the
recomputed life equals the stored `maxLives`. -/
def loadExisting (r : Rec) (now : Nat) (freshNick : String) : Rec :=
  let r0 := if r.nickname = "" then { r with nickname := freshNick } else r
  let res := calculateLife (some r0.life) (some r0.maxLives) (some r0.refillInterval)
    r0.lastLifeUpdate now
  if 0 < res.refillCount then
    { r0 with life := res.life, lastLifeUpdate := some now, updatedAt := some now }
  else if res.life = r0.maxLives then
    { r0 with life := res.life, lastLifeUpdate := some now, updatedAt := some now }
  else
    { r0 with life := res.life }

/-- Two cascaded `if`s with the same positive branch collapse into a
disjunction (the shape of the anchor policy in the load handler). -/
theorem ite_ite_same_or {α : Sort _} (p q : Prop) [Decidable p] [Decidable q]
    (a b : α) :
    (if p then a else if q then a else b) = if p ∨ q then a else b := by
  by_cases hp : p
  · simp [hp]
  · by_cases hq : q <;> simp [hp, hq]

/-- C2: a load of an existing record advances the stored anchor to the current
server time exactly when the recompute yields `refillCount > 0` or a recomputed
life equal to `maxLives`; in every other case the write touches only the `life`
field and the anchor is unchanged. -/
theorem loadExisting_anchor_policy (r : Rec) (now : Nat) (freshNick : String) :
    (loadExisting r now freshNick =
      (let r0 := if r.nickname = "" then { r with nickname := freshNick } else r
       let res := calculateLife (some r0.life) (some r0.maxLives)
         (some r0.refillInterval) r0.lastLifeUpdate now
       if 0 < res.refillCount ∨ res.life = r0.maxLives then
         { r0 with life := res.life, lastLifeUpdate := some now, updatedAt := some now }
       else
         { r0 with life := res.life })) ∧
    ((loadExisting r now freshNick).lastLifeUpdate =
      (let r0 := if r.nickname = "" then { r with nickname := freshNick } else r
       let res := calculateLife (some r0.life) (some r0.maxLives)
         (some r0.refillInterval) r0.lastLifeUpdate now
       if 0 < res.refillCount ∨ res.life = r0.maxLives then some now
       else r0.lastLifeUpdate)) := by
  constructor
  · simp only [loadExisting]
    rw [ite_ite_same_or]
  · simp only [loadExisting]
    rw [ite_ite_same_or, apply_ite Rec.lastLifeUpdate]

/-- A `POST /save` request body after `express.json` parsing.  Optional fields
are absent (`none`) or present; `jsonLevel` is the result the collaborating
JSON library produces for `JSON.parse(json).Level` — `none` when parsing fails
or the field is missing/falsy (the handler then keeps `newLevel = 0`). -/
structure SaveReq where
  sku : String
  clientAppVer : Option String
  json : Option String
  jsonLevel : Option Int
  life : Option Int
  maxLives : Option Int
  refillInterval : Option Int
  isPromotionRewardGranted : Option Bool
deriving DecidableEq

/-- Outcome of the save handler: the 400 validation rejection, the 500 catch
branch carrying the error message, or success. -/
inductive SaveOutcome where
  | badRequest : SaveOutcome
  | serverError : String → SaveOutcome
  | success : SaveOutcome
deriving DecidableEq

/-- The update payload the save handler constructs before `docRef.set(...,
merge: true)`.  `levelUpdatedAt` is `none` when the payload omits the field. -/
structure UpdateData where
  clientAppVer : String
  data : String
  life : Int
  maxLives : Int
  refillInterval : Int
  level : Int
  updatedAt : Nat
  isPromotionRewardGranted : Bool
  levelUpdatedAt : Option Nat
deriving DecidableEq

/-- Normalization `if (!maxLives || maxLives <= 0) maxLives = 5;` — an absent field
(`Number(undefined)` is `NaN`, which is falsy) or a non-positive value falls
back to 5. -/
def normMaxLives (v : Option Int) : Int :=
  match v with
  | none => 5
  | some x => if x ≤ 0 then 5 else x

/-- Normalization `if (!refillInterval || refillInterval <= 0) refillInterval = 900;`. -/
def normRefillInterval (v : Option Int) : Int :=
  match v with
  | none => 900
  | some x => if x ≤ 0 then 900 else x

/-- The value the identifier `promoGranted` evaluates to inside the save
handler.  The handler's scope binds `sku`, `clientAppVer`, `json`, `life`,
`maxLives`, `refillInterval`, `isPromotionRewardGranted`, `docRef`, `docSnap`,
`currentLevel`, `newLevel`, `parsedData` and `updateData` — never
`promoGranted`, so the lookup finds no binding and evaluating the object
literal at `isPromotionRewardGranted: promoGranted` throws a `ReferenceError`
that the surrounding `try` turns into the 500 branch. -/
def promoGrantedLookup : Option Bool := none

/-- Evaluation of the `updateData` object literal of the save handler.  Every
field mirrors the source; the literal only evaluates to a value if the free
identifier `promoGranted` resolves, which it never does. -/
def mkUpdateData (req : SaveReq) (now : Nat) (newLevel : Int) :
    Except String UpdateData :=
  match promoGrantedLookup with
  | none => Except.error "ReferenceError: promoGranted is not defined"
  | some promoGranted =>
    Except.ok
      { clientAppVer := req.clientAppVer.getD ""
        data := req.json.getD ""
        life := req.life.getD 0
        maxLives := normMaxLives req.maxLives
        refillInterval := normRefillInterval req.refillInterval
        level := newLevel
        updatedAt := now
        isPromotionRewardGranted := promoGranted
        levelUpdatedAt := none }

/-- Merge write `docRef.set(updateData, merge: true)`: fields present in the payload are
overwritten, the rest (`lastLifeUpdate`, `nickname`, and `levelUpdatedAt`
when the payload omits it) keep their stored values; an absent document is
created with the payload's fields only. -/
def applyMerge (stored : Option Rec) (ud : UpdateData) : Rec :=
  match stored with
  | some r =>
    { r with
      clientAppVer := ud.clientAppVer
      data := ud.data
      life := ud.life
      maxLives := ud.maxLives
      refillInterval := ud.refillInterval.toNat
      level := ud.level
      updatedAt := some ud.updatedAt
      isPromotionRewardGranted := ud.isPromotionRewardGranted
      levelUpdatedAt :=
        match ud.levelUpdatedAt with
        | some t => some t
        | none => r.levelUpdatedAt }
  | none =>
    { data := ud.data
      life := ud.life
      maxLives := ud.maxLives
      refillInterval := ud.refillInterval.toNat
      lastLifeUpdate := none
      updatedAt := some ud.updatedAt
      level := ud.level
      nickname := ""
      clientAppVer := ud.clientAppVer
      isPromotionRewardGranted := ud.isPromotionRewardGranted
      levelUpdatedAt := ud.levelUpdatedAt }

/-- Embedding of `POST /save` against the single document the request names:
validate, read the stored level, extract the submitted level, evaluate the
update payload (which raises the `promoGranted` reference error), stamp
`levelUpdatedAt` for a new record or a strictly increased level, and merge. -/
def saveHandler (req : SaveReq) (stored : Option Rec) (now : Nat) :
    SaveOutcome × Option Rec :=
  if req.sku = "" ∨ req.json = none ∨ req.life = none then
    (SaveOutcome.badRequest, stored)
  else
    let currentLevel : Int :=
      match stored with
      | some r => r.level
      | none => 0
    let newLevel : Int := req.jsonLevel.getD 0
    match mkUpdateData req now newLevel with
    | Except.error msg => (SaveOutcome.serverError msg, stored)
    | Except.ok ud =>
      let ud :=
        if stored = none ∨ currentLevel < newLevel then
          { ud with levelUpdatedAt := some now }
        else ud
      (SaveOutcome.success, some (applyMerge stored ud))

/-- Helper: the store is returned untouched by every save, whatever the
request, because both the validation branch and the reference-error branch
leave it as-is and the success branch is unreachable. -/
theorem saveHandler_store_eq (req : SaveReq) (stored : Option Rec) (now : Nat) :
    (saveHandler req stored now).2 = stored := by
  by_cases hv : req.sku = "" ∨ req.json = none ∨ req.life = none
  · simp [saveHandler, hv]
  · simp [saveHandler, hv, mkUpdateData, promoGrantedLookup]

/-- C5: every save request that passes field validation (non-empty `sku`,
`json` and `life` both present) ends in the error branch — the update payload
references the never-bound identifier `promoGranted` — and no record field is
written. -/
theorem saveHandler_always_errors (req : SaveReq) (stored : Option Rec) (now : Nat)
    (hsku : req.sku ≠ "") (hjson : req.json ≠ none) (hlife : req.life ≠ none) :
    saveHandler req stored now =
      (SaveOutcome.serverError "ReferenceError: promoGranted is not defined",
       stored) := by
  have hv : ¬(req.sku = "" ∨ req.json = none ∨ req.life = none) := by
    push_neg
    exact ⟨hsku, hjson, hlife⟩
  simp [saveHandler, hv, mkUpdateData, promoGrantedLookup]

/-- Witness for C5: a concrete validated save request errors and leaves the
concrete stored record alone. -/
theorem saveHandler_always_errors_witness :
    saveHandler
      { sku := "player-1", clientAppVer := some "toss : T 1.0",
        json := some "payload-level-7", jsonLevel := some 7, life := some 3,
        maxLives := some 5, refillInterval := some 900,
        isPromotionRewardGranted := some false }
      none 42 =
      (SaveOutcome.serverError "ReferenceError: promoGranted is not defined",
       none) :=
  saveHandler_always_errors _ none 42 (by decide) (by decide) (by decide)

/-- A concrete stored record used by the C1 counterexample: life 2, cap 5,
anchor at second 100. -/
def c1StoredRec : Rec :=
  { data := "old-payload", life := 2, maxLives := 5, refillInterval := 900,
    lastLifeUpdate := some 100, updatedAt := some 100, level := 3,
    nickname := "Bunny", clientAppVer := "toss : T 1.0",
    isPromotionRewardGranted := false, levelUpdatedAt := some 90 }

/-- A concrete validated save request raising life from 2 to 4. -/
def c1SaveReq : SaveReq :=
  { sku := "player-1", clientAppVer := some "toss : T 1.0",
    json := some "payload-level-3", jsonLevel := some 3, life := some 4,
    maxLives := some 5, refillInterval := some 900,
    isPromotionRewardGranted := some true }

/-- C1 counterexample: a save submitting life 4 against a stored life of 2
(strict raise) does NOT advance the persisted anchor to the commit time 200 —
the stored document still carries the old anchor 100, refuting the claimed
"advanced iff life strictly raised". -/
theorem save_raising_life_keeps_anchor_counterexample :
    c1StoredRec.life < (4 : Int) ∧
      (saveHandler c1SaveReq (some c1StoredRec) 200).2 = some c1StoredRec ∧
      c1StoredRec.lastLifeUpdate = some 100 ∧
      (some 100 : Option Nat) ≠ some 200 := by
  refine ⟨by decide, ?_, rfl, by decide⟩
  exact saveHandler_store_eq c1SaveReq (some c1StoredRec) 200

/-- C1 (amended): no save ever advances the anchor.  The save path's update
payload never contains `lastLifeUpdate` — and in this revision every validated
save aborts on the unbound `promoGranted` before writing — so for every save
request, stored record and commit time, the persisted record (anchor included)
is exactly the one stored before the save. -/
theorem save_never_advances_anchor (req : SaveReq) (r : Rec) (now : Nat) :
    (saveHandler req (some r) now).2 = some r ∧
      ((saveHandler req (some r) now).2.map Rec.lastLifeUpdate) =
        some r.lastLifeUpdate := by
  have h := saveHandler_store_eq req (some r) now
  exact ⟨h, by rw [h]; rfl⟩

/-- C7 failing input: a validated save of a brand-new record (no stored
document) whose payload parses to level 2.  The claim (and the code's own
comment at the `levelUpdatedAt` conditional) says the commit must stamp
`levelUpdatedAt`; instead the handler dies on the `promoGranted` reference
error and writes nothing at all. -/
theorem save_new_record_never_stamps_achievement :
    saveHandler
      { sku := "newbie", clientAppVer := some "toss : T 1.0",
        json := some "payload-level-2", jsonLevel := some 2, life := some 5,
        maxLives := none, refillInterval := none,
        isPromotionRewardGranted := none }
      none 50 =
      (SaveOutcome.serverError "ReferenceError: promoGranted is not defined",
       none) := by
  rfl

/-- The default payload blob `createDefaultSaveData(sku)` stringified by the
source for a brand-new record (note the revision's `RefillInterval: 30`). -/
def createDefaultSaveData (sku : String) : String :=
  "\x7b\"UserID\":\"" ++ sku ++
    "\",\"Resources\":\x7b\"keys\":[\"Coins\",\"Life\"],\"values\":[10,5]\x7d," ++
    "\"LastDisabledTime\":\"\",\"MaxLife\":5,\"RefillInterval\":30," ++
    "\"NextRefillRemainTime\":0,\"Level\":1,\"OpenLevel\":1," ++
    "\"RewardStreak\":-1,\"FreeSpin\":0\x7d"

/-- The document `POST /load` creates for an unknown id at server time `t0`
with a freshly allocated nickname: life 5 of 5, interval 900, anchor started,
level 1, promotion flag cleared; `clientAppVer` and `levelUpdatedAt` are not
written (empty / absent). -/
def newRecord (sku nick : String) (t0 : Nat) : Rec :=
  { data := createDefaultSaveData sku, life := 5, maxLives := 5,
    refillInterval := 900, lastLifeUpdate := some t0, updatedAt := some t0,
    level := 1, nickname := nick, clientAppVer := "",
    isPromotionRewardGranted := false, levelUpdatedAt := none }

/-- One request against a fixed player id: a save (with its request body and
commit time) or a load (with its server time and the nickname the allocator
would produce if a backfill is needed). -/
inductive Op where
  | save : SaveReq → Nat → Op
  | load : Nat → String → Op

/-- Apply one operation to the stored record. -/
def applyOp (r : Rec) : Op → Rec
  | Op.save req now =>
    match (saveHandler req (some r) now).2 with
    | some r' => r'
    | none => r
  | Op.load now nick => loadExisting r now nick

/-- Run a sequence of operations left to right. -/
def applyOps (r : Rec) : List Op → Rec
  | [] => r
  | op :: ops => applyOps (applyOp r op) ops

/-- The recomputed life stays within `[0, maxLives]` whenever the input life
does. -/
theorem calculateLife_life_bounds (life maxLives : Int) (interval now : Nat)
    (anchor : Option Nat) (h0 : 0 ≤ life) (h1 : life ≤ maxLives) :
    0 ≤ (calculateLife (some life) (some maxLives) (some interval) anchor now).life ∧
      (calculateLife (some life) (some maxLives) (some interval) anchor now).life
        ≤ maxLives := by
  simp only [calculateLife, Option.getD_some]
  split
  · exact ⟨h0, h1⟩
  · match anchor with
    | none => exact ⟨h0, h1⟩
    | some last =>
      constructor
      · exact le_min (le_trans h0 h1) (by positivity)
      · exact min_le_left _ _

/-- A load never changes the cap, and keeps life within `[0, maxLives]`. -/
theorem loadExisting_preserves_invariant (r : Rec) (now : Nat) (nick : String)
    (h0 : 0 ≤ r.life) (h1 : r.life ≤ r.maxLives) :
    (loadExisting r now nick).maxLives = r.maxLives ∧
      0 ≤ (loadExisting r now nick).life ∧
      (loadExisting r now nick).life ≤ (loadExisting r now nick).maxLives := by
  have hres := calculateLife_life_bounds r.life r.maxLives r.refillInterval now
    r.lastLifeUpdate h0 h1
  unfold loadExisting
  by_cases hn : r.nickname = "" <;>
    simp only [hn, if_true, if_false, ite_true, ite_false] <;>
    split <;> try split
  all_goals exact ⟨rfl, hres.1, hres.2⟩

/-- C4: starting from a freshly created record, every sequence of save and
load operations keeps the persisted life within `[0, maxLife]` (and the cap
itself never changes from 5). -/
theorem life_invariant_sequences (sku nick : String) (t0 : Nat) (ops : List Op) :
    0 ≤ (applyOps (newRecord sku nick t0) ops).life ∧
      (applyOps (newRecord sku nick t0) ops).life
        ≤ (applyOps (newRecord sku nick t0) ops).maxLives := by
  suffices h : ∀ (ops : List Op) (r : Rec), 0 ≤ r.life → r.life ≤ r.maxLives →
      0 ≤ (applyOps r ops).life ∧ (applyOps r ops).life ≤ (applyOps r ops).maxLives by
    exact h ops (newRecord sku nick t0) (by norm_num [newRecord]) (by norm_num [newRecord])
  intro ops
  induction ops with
  | nil => exact fun r h0 h1 => ⟨h0, h1⟩
  | cons op ops ih =>
    intro r h0 h1
    match op with
    | Op.save req now =>
      have hs : applyOp r (Op.save req now) = r := by
        simp [applyOp, saveHandler_store_eq]
      rw [applyOps, hs]
      exact ih r h0 h1
    | Op.load now nick' =>
      have hl := loadExisting_preserves_invariant r now nick' h0 h1
      rw [applyOps]
      exact ih _ hl.2.1 hl.2.2

/-- The padding `padStart(8, '0')` of the candidate digits: left-pad the decimal digits to eight
characters (a string already that long is returned unchanged). -/
def padStart8 (s : String) : String :=
  String.mk (List.replicate (8 - s.length) '0' ++ s.data)

/-- One nickname candidate: the fixed prefix `Player` plus the 8-digit
zero-padded random draw. -/
def candidateName (n : Nat) : String :=
  "Player" ++ padStart8 (toString n)

/-- The suffix `slice(-8)`: the last eight characters (the whole string
when shorter). -/
def sliceLast8 (s : String) : String :=
  String.mk (s.data.drop (s.length - 8))

/-- The `while (exists && tryCount < 10)` loop of `generateUniqueNickname`.
`remaining` is `10 - tryCount`, the number of iterations the guard still
allows; `rand` maps the attempt index to the random draw of that iteration and
`lookupBusy` is the store's "a user with this nickname exists" answer.
Returns the last candidate, the final `exists` flag and the final `tryCount`
(the number of uniqueness lookups performed). -/
def nicknameLoop (rand : Nat → Nat) (lookupBusy : String → Bool) :
    Nat → Nat → String → String × Bool × Nat
  | 0, tryCount, nickname => (nickname, true, tryCount)
  | remaining + 1, tryCount, _ =>
    let nickname := candidateName (rand tryCount)
    if lookupBusy nickname then
      nicknameLoop rand lookupBusy remaining (tryCount + 1) nickname
    else
      (nickname, false, tryCount + 1)

/-- Embedding of `generateUniqueNickname`: up to 10 checked candidates, then
the time-derived fallback `Player` + last 8 digits of `Date.now()`.  Returns
the nickname together with the number of store lookups performed. -/
def generateUniqueNickname (rand : Nat → Nat) (lookupBusy : String → Bool)
    (nowMs : Nat) : String × Nat :=
  let result := nicknameLoop rand lookupBusy 10 0 ""
  (if result.2.1 then "Player" ++ sliceLast8 (toString nowMs) else result.1,
    result.2.2)

/-- The loop performs at most `remaining` further lookups. -/
theorem nicknameLoop_tries_le (rand : Nat → Nat) (lookupBusy : String → Bool) :
    ∀ (remaining tryCount : Nat) (nickname : String),
      (nicknameLoop rand lookupBusy remaining tryCount nickname).2.2
        ≤ tryCount + remaining := by
  intro remaining
  induction remaining with
  | zero => intro t n; simp [nicknameLoop]
  | succ m ih =>
    intro t n
    rw [nicknameLoop]
    split
    · exact le_trans (ih (t + 1) _) (by omega)
    · simp only []
      omega

/-- When the store reports every candidate as taken, the loop exits with the
`exists` flag still set. -/
theorem nicknameLoop_all_busy (rand : Nat → Nat) (lookupBusy : String → Bool)
    (hb : ∀ s, lookupBusy s = true) :
    ∀ (remaining tryCount : Nat) (nickname : String),
      (nicknameLoop rand lookupBusy remaining tryCount nickname).2.1 = true := by
  intro remaining
  induction remaining with
  | zero => intro t n; rfl
  | succ m ih =>
    intro t n
    rw [nicknameLoop]
    rw [if_pos (hb _)]
    exact ih (t + 1) _

/-- C9: for every behaviour of the store's uniqueness lookup (and of the random
source), `generateUniqueNickname` performs at most 10 uniqueness-checked
candidate attempts; and when the store reports every candidate as already in
use it returns the deterministic fallback — the fixed prefix plus the
time-derived 8-character suffix. -/
theorem generateUniqueNickname_bounded_fallback (rand : Nat → Nat)
    (lookupBusy : String → Bool) (nowMs : Nat) :
    (generateUniqueNickname rand lookupBusy nowMs).2 ≤ 10 ∧
      ((∀ s, lookupBusy s = true) →
        (generateUniqueNickname rand lookupBusy nowMs).1 =
          "Player" ++ sliceLast8 (toString nowMs)) := by
  constructor
  · have h := nicknameLoop_tries_le rand lookupBusy 10 0 ""
    simpa [generateUniqueNickname] using h
  · intro hb
    have h := nicknameLoop_all_busy rand lookupBusy hb 10 0 ""
    simp [generateUniqueNickname, h]

/-- Witness for C9: an always-busy store with a fixed random source uses
exactly the bounded number of lookups and yields the fallback name. -/
theorem generateUniqueNickname_bounded_fallback_witness :
    (generateUniqueNickname (fun _ => 0) (fun _ => true) 1234567890123).2 ≤ 10 ∧
      (generateUniqueNickname (fun _ => 0) (fun _ => true) 1234567890123).1 =
        "Player" ++ sliceLast8 (toString 1234567890123) := by
  have h := generateUniqueNickname_bounded_fallback (fun _ => 0)
    (fun _ => true) 1234567890123
  exact ⟨h.1, h.2 (fun _ => rfl)⟩

/-- The cohort marker substring the ranking endpoint filters on. -/
def cohortMarker : String := "toss : T"

/-- JS `includes`: substring containment. -/
def jsIncludes (s pat : String) : Bool :=
  decide (pat.data <:+: s.data)

/-- A document of the ranking window: the Firestore document id together with
its fields. -/
structure UserDoc where
  id : String
  data : Rec
deriving DecidableEq

/-- The guard `userData.clientAppVer && userData.clientAppVer.includes("toss
: T")`: an absent or empty version tag is falsy and short-circuits, otherwise
the substring test decides. -/
def passesCohort (u : Rec) : Bool :=
  if u.clientAppVer = "" then false else jsIncludes u.clientAppVer cohortMarker

/-- One entry pushed onto `rankingList` with the running `rankCounter` value:
`nickname || "Unknown"` and `level || 1` mirror the JS defaults. -/
structure RankEntry where
  rank : Nat
  userId : String
  nickname : String
  level : Int
deriving DecidableEq

/-- Build the entry for the document at the current counter value. -/
def rankEntryOf (c : Nat) (d : UserDoc) : RankEntry :=
  { rank := c, userId := d.id,
    nickname := if d.data.nickname = "" then "Unknown" else d.data.nickname,
    level := if d.data.level = 0 then 1 else d.data.level }

/-- The `snapshot.forEach` loop: walk the ordered window, pushing an entry and
bumping the counter for each document that passes the cohort filter. -/
def buildRanking : List UserDoc → Nat → List RankEntry
  | [], _ => []
  | d :: ds, c =>
    if passesCohort d.data then rankEntryOf c d :: buildRanking ds (c + 1)
    else buildRanking ds c

/-- The `myRank` object of the ranking response: drawn from the public top 50
when the requester appears there, otherwise rebuilt from a point lookup with
the out-of-window rank `-1` and the advisory cohort flag. -/
structure MyRank where
  rank : Int
  userId : String
  nickname : String
  level : Int
  isTargetVersion : Option Bool
deriving DecidableEq

/-- Resolution of `myRankData` in the ranking handler. -/
def rankingMyRank (top50 : List RankEntry) (sku : String)
    (store : String → Option Rec) : Option MyRank :=
  match top50.find? (fun u => u.userId == sku) with
  | some e =>
    some { rank := (e.rank : Int), userId := e.userId, nickname := e.nickname,
           level := e.level, isTargetVersion := none }
  | none =>
    match store sku with
    | some myData =>
      some { rank := -1, userId := sku,
             nickname := if myData.nickname = "" then "Unknown" else myData.nickname,
             level := if myData.level = 0 then 1 else myData.level,
             isTargetVersion := some (passesCohort myData) }
    | none => none

/-- Embedding of `POST /ranking`: `window` is what the store's
`orderBy(level desc).orderBy(levelUpdatedAt asc).limit(200)` query returned
(the store is the external collaborator; its ordering is a hypothesis of the
ordering theorems), `store` answers the point lookup for the requester. -/
def rankingHandler (window : List UserDoc) (store : String → Option Rec)
    (sku : String) : List RankEntry × Option MyRank :=
  let rankingList := buildRanking window 1
  let top50 := rankingList.take 50
  (top50, rankingMyRank top50 sku store)

/-- The timestamp order `levelUpdatedAt asc` of the window query, on the
present-present case the numeric order; documents without the field do not
constrain it. -/
def tsLE : Option Nat → Option Nat → Prop
  | some a, some b => a ≤ b
  | some _, none => True
  | none, some _ => True
  | none, none => True

instance instTsLEDecidable : ∀ (x y : Option Nat), Decidable (tsLE x y)
  | some a, some b => inferInstanceAs (Decidable (a ≤ b))
  | some _, none => inferInstanceAs (Decidable True)
  | none, some _ => inferInstanceAs (Decidable True)
  | none, none => inferInstanceAs (Decidable True)

/-- The window query's ordering: `level` descending, then `levelUpdatedAt`
ascending. -/
def rankOrd (a b : UserDoc) : Prop :=
  b.data.level < a.data.level ∨
    (a.data.level = b.data.level ∧ tsLE a.data.levelUpdatedAt b.data.levelUpdatedAt)

instance instRankOrdDecidable : DecidableRel rankOrd := fun a b => by
  unfold rankOrd
  infer_instance

/-- The cohort guard coincides with plain marker containment: a tag containing
the (non-empty) marker is in particular non-empty. -/
theorem passesCohort_eq_jsIncludes (u : Rec) :
    passesCohort u = jsIncludes u.clientAppVer cohortMarker := by
  unfold passesCohort
  by_cases h : u.clientAppVer = ""
  · rw [if_pos h, h]
    decide
  · rw [if_neg h]

/-- The two spellings of the cohort filter agree. -/
theorem filter_cohort_eq (ws : List UserDoc) :
    ws.filter (fun d => jsIncludes d.data.clientAppVer cohortMarker) =
      ws.filter (fun d => passesCohort d.data) :=
  List.filter_congr fun d _ => (passesCohort_eq_jsIncludes d.data).symm

/-- Characterization of the ranking list: its `k`-th entry is exactly the
`k`-th cohort document of the window, carrying rank `c + k`. -/
theorem buildRanking_get? (ws : List UserDoc) :
    ∀ (c k : Nat),
      (buildRanking ws c).get? k =
        ((ws.filter fun d => passesCohort d.data).get? k).map
          (fun d => rankEntryOf (c + k) d) := by
  induction ws with
  | nil => intro c k; simp [buildRanking]
  | cons d ds ih =>
    intro c k
    by_cases hp : passesCohort d.data
    · rw [buildRanking, if_pos hp]
      simp only [List.filter_cons, hp, if_true]
      match k with
      | 0 => simp
      | k + 1 =>
        rw [List.get?_cons_succ, List.get?_cons_succ, ih (c + 1) k]
        have harith : c + 1 + k = c + (k + 1) := by omega
        rw [harith]
    · rw [buildRanking, if_neg hp]
      simp only [List.filter_cons, hp, if_false, Bool.false_eq_true]
      exact ih c k

/-- In a window sorted by `(level desc, levelUpdatedAt asc)`, of two distinct
positions with equal level and strictly ordered timestamps, the earlier
timestamp sits at the smaller index. -/
theorem sorted_index_lt (l : List UserDoc) (hp : l.Pairwise rankOrd)
    (i j : Fin l.length) (hne : (i : Nat) ≠ (j : Nat))
    (hlev : (l.get i).data.level = (l.get j).data.level)
    (t1 t2 : Nat) (h1 : (l.get i).data.levelUpdatedAt = some t1)
    (h2 : (l.get j).data.levelUpdatedAt = some t2) (hlt : t1 < t2) :
    (i : Nat) < (j : Nat) := by
  rcases Nat.lt_or_ge i j with h | h
  · exact h
  rcases Nat.eq_or_lt_of_le h with h' | h'
  · exact absurd h'.symm hne
  exfalso
  have hord := List.pairwise_iff_get.mp hp j i h'
  rcases hord with hlt' | ⟨_, hts⟩
  · rw [hlev] at hlt'
    exact lt_irrefl _ hlt'
  · rw [h2, h1] at hts
    have : t2 ≤ t1 := hts
    omega

/-- C8: over a window sorted by `(level desc, firstAchievedAt asc)`, the
ranking response is the dense-ranked cohort sublist truncated to the top 50:
(a) the public array is the first 50 entries of the built list, (b) the `k`-th
entry of the built list is exactly the `k`-th window document whose version
tag contains the cohort marker, carrying dense rank `1 + k`, and (c) of two
cohort documents with equal level and `firstAchievedAt` values `t1 < t2`, the
`t1` document sits at the strictly smaller index and so receives the strictly
smaller (better) rank. -/
theorem ranking_cohort_dense_tiebreak
    (ws : List UserDoc) (store : String → Option Rec) (sku : String)
    (hsort : ws.Pairwise rankOrd)
    (i j t1 t2 : Nat) (di dj : UserDoc)
    (hdi : (ws.filter fun d => jsIncludes d.data.clientAppVer cohortMarker).get? i
      = some di)
    (hdj : (ws.filter fun d => jsIncludes d.data.clientAppVer cohortMarker).get? j
      = some dj)
    (hne : i ≠ j)
    (hlev : di.data.level = dj.data.level)
    (h1 : di.data.levelUpdatedAt = some t1)
    (h2 : dj.data.levelUpdatedAt = some t2)
    (hlt : t1 < t2) :
    (rankingHandler ws store sku).1 = (buildRanking ws 1).take 50 ∧
    (∀ k, (buildRanking ws 1).get? k =
      ((ws.filter fun d => jsIncludes d.data.clientAppVer cohortMarker).get? k).map
        (fun d => rankEntryOf (1 + k) d)) ∧
    ((buildRanking ws 1).get? i).map RankEntry.rank = some (1 + i) ∧
    ((buildRanking ws 1).get? j).map RankEntry.rank = some (1 + j) ∧
    i < j := by
  have hfe := filter_cohort_eq ws
  have hik : ∀ k, (buildRanking ws 1).get? k =
      ((ws.filter fun d => jsIncludes d.data.clientAppVer cohortMarker).get? k).map
        (fun d => rankEntryOf (1 + k) d) := by
    intro k
    rw [hfe]
    exact buildRanking_get? ws 1 k
  rw [hfe] at hdi hdj
  obtain ⟨hi, hgi⟩ := List.get?_eq_some.mp hdi
  obtain ⟨hj, hgj⟩ := List.get?_eq_some.mp hdj
  have hpfl : (ws.filter fun d => passesCohort d.data).Pairwise rankOrd :=
    hsort.filter _
  have hij : i < j := by
    refine sorted_index_lt _ hpfl ⟨i, hi⟩ ⟨j, hj⟩ hne ?_ t1 t2 ?_ ?_ hlt
    · rw [hgi, hgj]
      exact hlev
    · rw [hgi]
      exact h1
    · rw [hgj]
      exact h2
  refine ⟨rfl, hik, ?_, ?_, hij⟩
  · rw [buildRanking_get? ws 1 i, hdi]
    rfl
  · rw [buildRanking_get? ws 1 j, hdj]
    rfl

/-- First cohort document of the C8 witness window: level 7, achieved at 10. -/
def w8a : UserDoc :=
  ⟨"alice",
   { data := "pa", life := 5, maxLives := 5, refillInterval := 900,
     lastLifeUpdate := some 0, updatedAt := some 0, level := 7,
     nickname := "A", clientAppVer := "toss : T 1.2",
     isPromotionRewardGranted := false, levelUpdatedAt := some 10 }⟩

/-- Second cohort document of the C8 witness window: level 7, achieved at 20. -/
def w8b : UserDoc :=
  ⟨"bob",
   { data := "pb", life := 5, maxLives := 5, refillInterval := 900,
     lastLifeUpdate := some 0, updatedAt := some 0, level := 7,
     nickname := "B", clientAppVer := "v2 toss : T",
     isPromotionRewardGranted := false, levelUpdatedAt := some 20 }⟩

/-- Witness for C8 on a concrete sorted two-document window with an
equal-level tie broken by the timestamps 10 < 20. -/
theorem ranking_cohort_dense_tiebreak_witness :
    (rankingHandler [w8a, w8b] (fun _ => none) "alice").1 =
      (buildRanking [w8a, w8b] 1).take 50 ∧
    ((buildRanking [w8a, w8b] 1).get? 0).map RankEntry.rank = some 1 ∧
    ((buildRanking [w8a, w8b] 1).get? 1).map RankEntry.rank = some 2 ∧
    (0 : Nat) < 1 := by
  have h := ranking_cohort_dense_tiebreak [w8a, w8b] (fun _ => none) "alice"
    (by decide) 0 1 10 20 w8a w8b (by decide) (by decide) (by decide)
    (by decide) (by decide) (by decide) (by decide)
  exact ⟨h.1, h.2.2.1, h.2.2.2.1, h.2.2.2.2⟩

/-- C10: when the requester id names an existing record that does not appear
in the truncated public top 50 — its cohort membership irrelevant — the
response's `myRank` is the out-of-window object: rank `-1` carrying that
record's nickname and level (and the advisory cohort flag); when no record
exists for the requester id, `myRank` is absent. -/
theorem ranking_myRank_resolution
    (ws : List UserDoc) (sku : String) (store storeB : String → Option Rec)
    (r : Rec)
    (hfind : ((buildRanking ws 1).take 50).find? (fun u => u.userId == sku) = none)
    (hstore : store sku = some r)
    (hnick : r.nickname ≠ "") (hlev : r.level ≠ 0)
    (hstoreB : storeB sku = none) :
    (rankingHandler ws store sku).2 =
      some { rank := -1, userId := sku, nickname := r.nickname, level := r.level,
             isTargetVersion := some (passesCohort r) } ∧
    (rankingHandler ws storeB sku).2 = none := by
  constructor
  · simp only [rankingHandler, rankingMyRank, hfind, hstore, if_neg hnick,
      if_neg hlev]
  · simp only [rankingHandler, rankingMyRank, hfind, hstoreB]

/-- The record backing the C10 witness requester: present in the store, not in
the cohort (empty version tag), never in the empty window. -/
def w10Rec : Rec :=
  { data := "pz", life := 4, maxLives := 5, refillInterval := 900,
    lastLifeUpdate := some 3, updatedAt := some 3, level := 9,
    nickname := "Zed", clientAppVer := "",
    isPromotionRewardGranted := false, levelUpdatedAt := some 1 }

/-- Witness for C10: a concrete requester outside the top 50 gets the rank
`-1` object with their nickname and level; an unknown requester gets none. -/
theorem ranking_myRank_resolution_witness :
    (rankingHandler []
        (fun s => if s = "me" then some w10Rec else none) "me").2 =
      some { rank := -1, userId := "me", nickname := w10Rec.nickname,
             level := w10Rec.level,
             isTargetVersion := some (passesCohort w10Rec) } ∧
    (rankingHandler [] (fun _ => none) "me").2 = none :=
  ranking_myRank_resolution [] "me"
    (fun s => if s = "me" then some w10Rec else none) (fun _ => none) w10Rec
    (by decide) (by decide) (by decide) (by decide) (by decide)
